import Mathlib

/-!
Verification of the sqlingo expression-compilation engine

A shallow embedding of the core of `expression.go` and `common.go`:
literal-string escaping (`needsEscape`, `quoteString`), the expression node
(`expression` struct), the value marshaller (`getSQL`), the operator
compilers (`binaryOperation`, the prefix/suffix builder, `And`/`Or`/`Not`,
`In`/`NotIn`, `buildBetween`, `function`, `commaValues`) and the recursive
slice flattening (`expandSliceValue`/`expandSliceValues`).

Go strings used as raw byte sequences (the escaping code indexes bytes) are
modelled as `List Nat`; SQL text that is only ever concatenated is modelled
as Lean `String`.  A Go `(string, error)` pair is modelled as
`String × Option String`; the marshaller triple `(sql, priority, error)` as
`String × Nat × Option String`.  The rendering `scope` is opaque to all the
code modelled here, so every definition is parametric in a type `σ`.
-/

namespace Sqlingo

/-- The escape table of `expression.go` (`var needsEscape = [256]int{...}`):
1 exactly at NUL, LF (10), CR (13), backslash (92), single quote (39),
double quote (34) and 0x1A (26); 0 elsewhere. -/
def needsEscape (b : Nat) : Nat :=
  if b = 0 ∨ b = 10 ∨ b = 13 ∨ b = 92 ∨ b = 39 ∨ b = 34 ∨ b = 26 then 1 else 0

/-- One step of the byte loop in `quoteString`: the loop writes a backslash
at position `n`, advances `n` by `needsEscape[b]` (so the backslash survives
exactly when the byte needs escaping, and is overwritten by `b` otherwise),
then writes `b`.  Net effect on the buffer: append `[92, b]` when
`needsEscape b = 1`, append `[b]` otherwise. -/
def quoteLoop (s : List Nat) (buf : List Nat) : List Nat :=
  match s with
  | [] => buf
  | b :: rest =>
      quoteLoop rest (buf ++ (if needsEscape b = 1 then [92, b] else [b]))

/-- Go `quoteString` of `expression.go`: the empty string yields `''`
(two quote bytes); otherwise an opening quote byte 39, the escaped body,
and a closing quote byte 39. -/
def quoteString (s : List Nat) : List Nat :=
  if s = [] then [39, 39]
  else quoteLoop s [39] ++ [39]

/-- Spec-side escaping of a single byte, written from the spec's byte set:
"every byte in the set {NUL, `\n`, `\r`, `\\`, `'`, `"`, 0x1A} is preceded
by a backslash". -/
def specEscapeByte (b : Nat) : List Nat :=
  if b ∈ ([0, 10, 13, 92, 39, 34, 26] : List Nat) then [92, b] else [b]

/-- Spec-side conceptual un-escaping: a backslash byte consumes the byte
after it, which is taken literally; every other byte stands for itself. -/
def unescape : List Nat → List Nat
  | [] => []
  | [b] => [b]
  | b :: c :: rest =>
      if b = 92 then c :: unescape rest else b :: unescape (c :: rest)

theorem escape_agrees (b : Nat) :
    (if needsEscape b = 1 then [92, b] else [b]) = specEscapeByte b := by
  simp only [needsEscape, specEscapeByte, List.mem_cons, List.not_mem_nil, or_false]
  by_cases h : b = 0 ∨ b = 10 ∨ b = 13 ∨ b = 92 ∨ b = 39 ∨ b = 34 ∨ b = 26
  · simp [h]
  · simp [h]

theorem quoteLoop_acc (s : List Nat) :
    ∀ buf : List Nat, quoteLoop s buf = buf ++ s.flatMap specEscapeByte := by
  induction s with
  | nil => intro buf; simp [quoteLoop]
  | cons b rest ih =>
      intro buf
      rw [quoteLoop, ih, escape_agrees]
      simp [List.append_assoc]

theorem unescape_cons_ne (b : Nat) (l : List Nat) (hb : b ≠ 92) :
    unescape (b :: l) = b :: unescape l := by
  cases l with
  | nil => rfl
  | cons c rest => simp [unescape, hb]

theorem unescape_flatMap (s : List Nat) :
    unescape (s.flatMap specEscapeByte) = s := by
  induction s with
  | nil => rfl
  | cons b rest ih =>
      by_cases h : b ∈ ([0, 10, 13, 92, 39, 34, 26] : List Nat)
      · have : (b :: rest).flatMap specEscapeByte
            = 92 :: b :: rest.flatMap specEscapeByte := by
          simp [specEscapeByte, h]
        rw [this, unescape]
        simp [ih]
      · have hb : b ≠ 92 := by
          intro hc
          exact h (by simp [hc])
        have : (b :: rest).flatMap specEscapeByte
            = b :: rest.flatMap specEscapeByte := by
          simp [specEscapeByte, h]
        rw [this, unescape_cons_ne b _ hb, ih]

/-- C1: marshalling a string wraps it in single quotes (byte 39); inside,
exactly the bytes in {NUL, LF, CR, backslash, single quote, double quote,
0x1A} are each preceded by a backslash (`specEscapeByte` is written from
the spec's set, and `quoteString` produces exactly its output); the empty
string yields `''`; and conceptually un-escaping the quoted content
reproduces the input exactly. -/
theorem c1_quote_escape_roundtrip (s : List Nat) :
    quoteString s = 39 :: (s.flatMap specEscapeByte ++ [39])
      ∧ quoteString [] = [39, 39]
      ∧ unescape (s.flatMap specEscapeByte) = s := by
  refine ⟨?_, rfl, unescape_flatMap s⟩
  by_cases h : s = []
  · subst h; rfl
  · rw [quoteString, if_neg h, quoteLoop_acc]
    simp

/-- The `expression` struct of `expression.go`.  Go's zero values (empty
string, nil function pointer, 0, false) are the field defaults, exactly as
a Go struct literal leaves unmentioned fields.  `σ` is the opaque rendering
scope. -/
structure Expr (σ : Type) where
  sql : String := ""
  builder : Option (σ → String × Option String) := none
  priority : Nat := 0
  isTrue : Bool := false
  isFalse : Bool := false
  isBool : Bool := false

/-- Go `expression.GetSQL`: a non-empty `sql` field is returned directly,
otherwise the builder closure runs.  A node with neither (possible only via
`Raw ""`) dereferences a nil function in Go; that crash is modelled as a
distinguished error. -/
def Expr.GetSQL {σ : Type} (e : Expr σ) (s : σ) : String × Option String :=
  if e.sql ≠ "" then (e.sql, none)
  else
    match e.builder with
    | some b => b s
    | none => ("", some "panic: nil builder")

def Expr.getOperatorPriority {σ : Type} (e : Expr σ) : Nat :=
  e.priority

/-- Go `staticExpression` of `expression.go`. -/
def staticExpression {σ : Type} (sql : String) (priority : Nat) (isBool : Bool) : Expr σ :=
  { sql := sql, priority := priority, isBool := isBool }

/-- Go `True()` of `expression.go` (named `TrueE` to avoid clashing with the
proposition `True`). -/
def TrueE {σ : Type} : Expr σ :=
  { sql := "1", isTrue := true, isBool := true }

/-- Go `False()` of `expression.go` (named `FalseE` likewise). -/
def FalseE {σ : Type} : Expr σ :=
  { sql := "0", isFalse := true, isBool := true }

/-- Go `Raw` of `expression.go`: a pre-rendered fragment with priority 99. -/
def Raw {σ : Type} (sql : String) : Expr σ :=
  { sql := sql, priority := 99 }

/-- The runtime values the marshaller `getSQL` dispatches on, restricted to
the cases the verified claims exercise: `nil`, `int`, an `Expression`
node, and a finalized sub-select (`toSelectFinal`, whose `GetSQL()` result
is the collaborator-supplied pair). -/
inductive Value (σ : Type) where
  | null
  | int (n : Int)
  | expr (e : Expr σ)
  | subquery (res : String × Option String)

/-- The value marshaller `getSQL` of `expression.go`, returning
`(sql, priority, error)`: `nil` gives `NULL`, an int its decimal text, an
expression its own render and priority, a finalized select its render
wrapped in parentheses (or its error, with the partial text, unchanged). -/
def getSQL {σ : Type} (scope : σ) : Value σ → String × Nat × Option String
  | .null => ("NULL", 0, none)
  | .int n => (toString n, 0, none)
  | .expr e =>
      match e.GetSQL scope with
      | (sql, err) => (sql, e.getOperatorPriority, err)
  | .subquery res =>
      match res with
      | (sql, some er) => (sql, 0, some er)
      | (sql, none) => ("(" ++ sql ++ ")", 0, none)

/-- Go `expression.binaryOperation`: render the left child, propagate its
error; marshal the right value, propagate its error; parenthesize the left
operand iff its priority is strictly greater than the result priority, the
right operand iff its priority is greater than or equal; join with single
spaces.  The node carries the result priority and boolean flag. -/
def Expr.binaryOperation {σ : Type} (e : Expr σ) (operator : String)
    (value : Value σ) (priority : Nat) (isBool : Bool) : Expr σ :=
  { builder := some (fun scope =>
      match e.GetSQL scope with
      | (_, some er) => ("", some er)
      | (leftSql, none) =>
          match getSQL scope value with
          | (_, _, some er) => ("", some er)
          | (rightSql, rightPriority, none) =>
              let l := if e.priority > priority
                then "(" ++ leftSql ++ ")" else leftSql
              let r := if rightPriority ≥ priority
                then "(" ++ rightSql ++ ")" else rightSql
              (l ++ " " ++ operator ++ " " ++ r, none)),
    priority := priority, isBool := isBool }

def Expr.NotEquals {σ : Type} (e : Expr σ) (other : Value σ) : Expr σ :=
  e.binaryOperation "<>" other 11 true

def Expr.Equals {σ : Type} (e : Expr σ) (other : Value σ) : Expr σ :=
  e.binaryOperation "=" other 11 true

def Expr.LessThan {σ : Type} (e : Expr σ) (other : Value σ) : Expr σ :=
  e.binaryOperation "<" other 11 true

def Expr.Add {σ : Type} (e : Expr σ) (other : Value σ) : Expr σ :=
  e.binaryOperation "+" other 7 false

def Expr.Sub {σ : Type} (e : Expr σ) (other : Value σ) : Expr σ :=
  e.binaryOperation "-" other 7 false

def Expr.Mul {σ : Type} (e : Expr σ) (other : Value σ) : Expr σ :=
  e.binaryOperation "*" other 6 false

/-- Go's `prefixSuffixExpression`: when the operand is a pre-rendered
fragment (`e.sql != ""`) the texts are concatenated directly, with no
parenthesization; otherwise a builder closure renders the operand,
parenthesizing it only when its priority strictly exceeds the result
priority. -/
def Expr.prefSuffixExpression {σ : Type} (e : Expr σ) (pre suffix : String)
    (priority : Nat) (isBool : Bool) : Expr σ :=
  if e.sql ≠ "" then
    { sql := pre ++ e.sql ++ suffix, priority := priority, isBool := isBool }
  else
    { builder := some (fun scope =>
        match e.GetSQL scope with
        | (_, some er) => ("", some er)
        | (exprSql, none) =>
            let body := if e.priority > priority
              then "(" ++ exprSql ++ ")" else exprSql
            (pre ++ body ++ suffix, none)),
      priority := priority, isBool := isBool }

/-- Go `expression.Not`: constants fold, everything else becomes the
`NOT `-prefixed node at priority 13. -/
def Expr.Not {σ : Type} (e : Expr σ) : Expr σ :=
  if e.isTrue then FalseE
  else if e.isFalse then TrueE
  else e.prefSuffixExpression "NOT " "" 13 true

/-- Go `toBooleanExpression`: a non-expression value gives `nil`; a
definitely-true node gives `True()`, a definitely-false node `False()`, a
boolean-flagged node itself; anything else `nil`. -/
def toBooleanExpression {σ : Type} : Value σ → Option (Expr σ)
  | .expr e =>
      if e.isTrue then some TrueE
      else if e.isFalse then some FalseE
      else if e.isBool then some e
      else none
  | _ => none

/-- Go `expression.And`: a definitely-false left absorbs; a definitely-true
left substitutes the right operand when it is boolean-classified;
otherwise the generic binary `AND` node at priority 14. -/
def Expr.And {σ : Type} (e : Expr σ) (other : Value σ) : Expr σ :=
  if e.isFalse then e
  else if e.isTrue then
    match toBooleanExpression other with
    | some exp => exp
    | none => e.binaryOperation "AND" other 14 true
  else e.binaryOperation "AND" other 14 true

/-- Go `expression.Or`: symmetric to `And`, priority 16. -/
def Expr.Or {σ : Type} (e : Expr σ) (other : Value σ) : Expr σ :=
  if e.isTrue then e
  else if e.isFalse then
    match toBooleanExpression other with
    | some exp => exp
    | none => e.binaryOperation "OR" other 16 true
  else e.binaryOperation "OR" other 16 true

/-- Go `expression.As`: builder appending " AS name"; no other field set. -/
def Expr.As {σ : Type} (e : Expr σ) (name : String) : Expr σ :=
  { builder := some (fun scope =>
      match e.GetSQL scope with
      | (_, some er) => ("", some er)
      | (expressionSql, none) => (expressionSql ++ " AS " ++ name, none)) }

/-- The loop body of `commaValues` (`common.go`): items joined by ", ",
any marshal error returned at once with an empty string. -/
def commaValuesGo {σ : Type} (scope : σ) :
    List (Value σ) → String → Bool → String × Option String
  | [], acc, _ => (acc, none)
  | item :: rest, acc, first =>
      let acc1 := if first then acc else acc ++ ", "
      match getSQL scope item with
      | (_, _, some er) => ("", some er)
      | (itemSql, _, none) => commaValuesGo scope rest (acc1 ++ itemSql) false

/-- Go `commaValues` of `common.go` (its marshal call, `getSQLFromWhatever`,
is the marshaller modelled here as `getSQL`). -/
def commaValues {σ : Type} (scope : σ) (values : List (Value σ)) :
    String × Option String :=
  commaValuesGo scope values "" true

/-- Go `function` of `common.go`: `NAME(arg1, arg2, ...)`, propagating any
error from the comma list. -/
def function {σ : Type} (name : String) (args : List (Value σ)) : Expr σ :=
  { builder := some (fun scope =>
      match commaValues scope args with
      | (_, some er) => ("", some er)
      | (valuesSql, none) => (name ++ "(" ++ valuesSql ++ ")", none)) }

/-- Go `expression.getBuilder`: one value that is a finalized select renders
as a subquery; one other value degrades to the scalar form `single`;
otherwise the comma list is built; then the left expression renders and
`joiner` assembles the result.  Errors short-circuit with `""`. -/
def Expr.getBuilder {σ : Type} (e : Expr σ) (single : Value σ → Expr σ)
    (joiner : String → String → String) (values : List (Value σ)) :
    σ → String × Option String :=
  fun scope =>
    let tail : String → String × Option String := fun valuesSql =>
      match e.GetSQL scope with
      | (_, some er) => ("", some er)
      | (exprSql, none) => (joiner exprSql valuesSql, none)
    match values with
    | [value] =>
        match value with
        | .subquery res =>
            match res with
            | (_, some er) => ("", some er)
            | (valuesSql, none) => tail valuesSql
        | _ => (single value).GetSQL scope
    | _ =>
        match commaValues scope values with
        | (_, some er) => ("", some er)
        | (valuesSql, none) => tail valuesSql

/-- A `reflect.Value` as seen by `expandSliceValue`: arrays/slices,
pointers/interfaces (`none` inside means nil — `Elem()` then yields the
zero `reflect.Value`, i.e. `invalid`), the zero value itself, and every
other kind (the switch's default case) as `base` carrying a marshaller
value. -/
inductive RVal (σ : Type) where
  | invalid
  | array (elems : List (RVal σ))
  | ptr (elem : Option (RVal σ))
  | base (v : Value σ)

/-- Go `expandSliceValue` of `expression.go`: arrays/slices flatten their
elements in order; pointers/interfaces recurse through `Elem()` — for a
nil pointer/interface `Elem()` is the zero `reflect.Value`, which falls
into the default case, where `reflect.Value.Interface` panics on a zero
`Value` (modelled as `none`); every other value is appended as is. -/
def expandSliceValue {σ : Type} : RVal σ → Option (List (Value σ))
  | .invalid => none
  | .ptr none => none
  | .ptr (some v) => expandSliceValue v
  | .base v => some [v]
  | .array [] => some []
  | .array (x :: xs) => do
      let h ← expandSliceValue x
      let t ← expandSliceValue (.array xs)
      pure (h ++ t)

/-- Go `expandSliceValues` of `expression.go`: flatten each argument in
order; a panic anywhere propagates (the whole call crashes). -/
def expandSliceValues {σ : Type} : List (RVal σ) → Option (List (Value σ))
  | [] => some []
  | v :: rest => do
      let h ← expandSliceValue v
      let t ← expandSliceValues rest
      pure (h ++ t)

/-- Go `expression.In`: flatten; an empty list collapses to `False()`;
otherwise a builder node at priority 11 whose single-value degradation is
`Equals` and whose joiner writes `expr IN (values)`.  `none` models a
panic during flattening. -/
def Expr.In {σ : Type} (e : Expr σ) (values : List (RVal σ)) : Option (Expr σ) :=
  match expandSliceValues values with
  | none => none
  | some vals =>
      if vals.length = 0 then some FalseE
      else some
        { builder := some (e.getBuilder e.Equals
            (fun exprSql valuesSql => exprSql ++ " IN (" ++ valuesSql ++ ")")
            vals),
          priority := 11 }

/-- Go `expression.NotIn`: as `In` with `True()`, `NotEquals` and
`expr NOT IN (values)`. -/
def Expr.NotIn {σ : Type} (e : Expr σ) (values : List (RVal σ)) : Option (Expr σ) :=
  match expandSliceValues values with
  | none => none
  | some vals =>
      if vals.length = 0 then some TrueE
      else some
        { builder := some (e.getBuilder e.NotEquals
            (fun exprSql valuesSql => exprSql ++ " NOT IN (" ++ valuesSql ++ ")")
            vals),
          priority := 11 }

/-- Go `expression.buildBetween`: renders `expr OPERATOR min AND max`,
propagating the first error with an empty string; fixed priority 12, no
boolean flag set (the Go struct literal leaves `isBool` false). -/
def Expr.buildBetween {σ : Type} (e : Expr σ) (operator : String)
    (lo hi : Value σ) : Expr σ :=
  { builder := some (fun scope =>
      match e.GetSQL scope with
      | (_, some er) => ("", some er)
      | (exprSql, none) =>
          match getSQL scope lo with
          | (_, _, some er) => ("", some er)
          | (minSql, _, none) =>
              match getSQL scope hi with
              | (_, _, some er) => ("", some er)
              | (maxSql, _, none) =>
                  (exprSql ++ operator ++ minSql ++ " AND " ++ maxSql, none)),
    priority := 12 }

def Expr.Between {σ : Type} (e : Expr σ) (lo hi : Value σ) : Expr σ :=
  e.buildBetween " BETWEEN " lo hi

def Expr.NotBetween {σ : Type} (e : Expr σ) (lo hi : Value σ) : Expr σ :=
  e.buildBetween " NOT BETWEEN " lo hi

theorem GetSQL_of_builder {σ : Type} (e : Expr σ) (s : σ)
    (f : σ → String × Option String)
    (h0 : e.sql = "") (hb : e.builder = some f) :
    e.GetSQL s = f s := by
  rw [Expr.GetSQL, h0, hb]
  simp

/-- C2: a binary operator node built with result priority `p`
parenthesizes the left operand iff the left priority is strictly greater
than `p`, and the right operand iff the right priority is greater than or
equal to `p`; consequently `a.Add(b).Mul(c)` renders as `(a + b) * c`,
`a.Mul(b).Add(c)` as `a * b + c`, and `a.Sub(b.Sub(c))` as
`a - (b - c)`. -/
theorem c2_binary_precedence {σ : Type} (s : σ) (e : Expr σ) (op : String)
    (v : Value σ) (p : Nat) (bb : Bool) (ls rs : String) (rp : Nat)
    (hL : e.GetSQL s = (ls, none)) (hR : getSQL s v = (rs, rp, none)) :
    (e.binaryOperation op v p bb).GetSQL s =
      ((if e.priority > p then "(" ++ ls ++ ")" else ls) ++ " " ++ op ++ " "
        ++ (if rp ≥ p then "(" ++ rs ++ ")" else rs), none)
    ∧ (((staticExpression "a" 0 false : Expr Unit).Add
          (.expr (staticExpression "b" 0 false))).Mul
          (.expr (staticExpression "c" 0 false))).GetSQL ()
        = ("(a + b) * c", none)
    ∧ (((staticExpression "a" 0 false : Expr Unit).Mul
          (.expr (staticExpression "b" 0 false))).Add
          (.expr (staticExpression "c" 0 false))).GetSQL ()
        = ("a * b + c", none)
    ∧ ((staticExpression "a" 0 false : Expr Unit).Sub
          (.expr ((staticExpression "b" 0 false).Sub
            (.expr (staticExpression "c" 0 false))))).GetSQL ()
        = ("a - (b - c)", none) := by
  refine ⟨?_, by decide, by decide, by decide⟩
  rw [GetSQL_of_builder _ _ _ rfl rfl, hL, hR]

theorem c2_binary_precedence_witness :
    ((staticExpression "x" 0 false : Expr Unit).binaryOperation "OR"
        (.expr (staticExpression "y" 16 false)) 16 true).GetSQL ()
      = ("x OR (y)", none) := by
  have h := (c2_binary_precedence () (staticExpression "x" 0 false) "OR"
    (Value.expr (staticExpression "y" 16 false)) 16 true "x" "y" 16 rfl rfl).1
  simpa using h

theorem TrueE_GetSQL {σ : Type} (s : σ) : (TrueE : Expr σ).GetSQL s = ("1", none) := rfl

theorem FalseE_GetSQL {σ : Type} (s : σ) : (FalseE : Expr σ).GetSQL s = ("0", none) := rfl

/-- C3: `False().And(x)` renders as the constant `0` and `True().Or(x)`
as the constant `1` for any right operand; when `x` is boolean-classified
(definitely-true, definitely-false or boolean-flagged) `True().And(x)`
and `False().Or(x)` render identically to `x` alone; when `x` is not
boolean-classified the generic binary AND/OR node is built.  The
hypotheses `hT`/`hF` record the API invariant that definitely-true nodes
render `"1"` and definitely-false nodes `"0"`. -/
theorem c3_boolean_folding {σ : Type} (s : σ) (x : Expr σ)
    (hT : x.isTrue = true → x.GetSQL s = ("1", none))
    (hF : x.isFalse = true → x.GetSQL s = ("0", none)) :
    (∀ v : Value σ, ((FalseE : Expr σ).And v).GetSQL s = ("0", none))
    ∧ (∀ v : Value σ, ((TrueE : Expr σ).Or v).GetSQL s = ("1", none))
    ∧ ((x.isTrue = true ∨ x.isFalse = true ∨ x.isBool = true) →
        (TrueE.And (.expr x)).GetSQL s = x.GetSQL s
        ∧ (FalseE.Or (.expr x)).GetSQL s = x.GetSQL s)
    ∧ (x.isTrue = false → x.isFalse = false → x.isBool = false →
        TrueE.And (.expr x) = TrueE.binaryOperation "AND" (.expr x) 14 true
        ∧ FalseE.Or (.expr x) = FalseE.binaryOperation "OR" (.expr x) 16 true) := by
  refine ⟨fun v => rfl, fun v => rfl, ?_, ?_⟩
  · intro hcls
    by_cases h1 : x.isTrue = true
    · rw [hT h1]
      constructor <;>
        simp [Expr.And, Expr.Or, TrueE, FalseE, toBooleanExpression, h1,
          TrueE_GetSQL, FalseE_GetSQL, Expr.GetSQL]
    · by_cases h2 : x.isFalse = true
      · rw [hF h2]
        constructor <;>
          simp [Expr.And, Expr.Or, TrueE, FalseE, toBooleanExpression, h1, h2,
            TrueE_GetSQL, FalseE_GetSQL, Expr.GetSQL]
      · have h3 : x.isBool = true := by
          rcases hcls with h | h | h
          · exact absurd h h1
          · exact absurd h h2
          · exact h
        constructor <;>
          simp [Expr.And, Expr.Or, TrueE, FalseE, toBooleanExpression, h1, h2, h3]
  · intro h1 h2 h3
    constructor <;>
      simp [Expr.And, Expr.Or, TrueE, FalseE, toBooleanExpression, h1, h2, h3]

theorem c3_boolean_folding_witness :
    ((TrueE : Expr Unit).And (.expr (staticExpression "a = b" 0 true))).GetSQL ()
      = ("a = b", none) := by
  have h := (c3_boolean_folding () (staticExpression "a = b" 0 true)
    (by intro h; exact absurd h (by decide))
    (by intro h; exact absurd h (by decide))).2.2.1
      (Or.inr (Or.inr rfl))
  simpa using h.1

theorem string_append_eq_empty_iff (a b : String) :
    a ++ b = "" ↔ a = "" ∧ b = "" := by
  constructor
  · intro h
    have hd : a.data ++ b.data = ([] : List Char) := congrArg String.data h
    have h2 := List.append_eq_nil.mp hd
    exact ⟨String.ext h2.1, String.ext h2.2⟩
  · rintro ⟨h1, h2⟩
    rw [h1, h2]
    rfl

theorem string_append_empty (a : String) : a ++ "" = a :=
  String.ext (by simp)

theorem binaryOperation_spec {σ : Type} (s : σ) (e : Expr σ) (op : String)
    (v : Value σ) (p : Nat) (bb : Bool) (ls rs : String) (rp : Nat)
    (hL : e.GetSQL s = (ls, none)) (hR : getSQL s v = (rs, rp, none)) :
    (e.binaryOperation op v p bb).GetSQL s =
      ((if e.priority > p then "(" ++ ls ++ ")" else ls) ++ " " ++ op ++ " "
        ++ (if rp ≥ p then "(" ++ rs ++ ")" else rs), none) := by
  rw [GetSQL_of_builder _ _ _ rfl rfl, hL, hR]

theorem Raw_GetSQL {σ : Type} (s : σ) (r : String) (hr : r ≠ "") :
    (Raw r : Expr σ).GetSQL s = (r, none) := by
  rw [Expr.GetSQL]
  simp [Raw, hr]

theorem prefSuffix_slow {σ : Type} (e : Expr σ) (pre suffix : String)
    (p : Nat) (b : Bool) (h0 : e.sql = "") (s : σ) (t : String)
    (hG : e.GetSQL s = (t, none)) :
    (e.prefSuffixExpression pre suffix p b).GetSQL s
      = (pre ++ (if e.priority > p then "(" ++ t ++ ")" else t) ++ suffix,
          none) := by
  rw [Expr.prefSuffixExpression, if_neg (by simp [h0]),
    GetSQL_of_builder _ _ _ rfl rfl, hG]

theorem prefSuffix_fast {σ : Type} (e : Expr σ) (pre suffix : String)
    (p : Nat) (b : Bool) (h0 : e.sql ≠ "") :
    e.prefSuffixExpression pre suffix p b
      = { sql := pre ++ e.sql ++ suffix, priority := p, isBool := b } := by
  rw [Expr.prefSuffixExpression, if_pos h0]

theorem prefSuffix_isTrue {σ : Type} (e : Expr σ) (pre suffix : String)
    (p : Nat) (b : Bool) :
    (e.prefSuffixExpression pre suffix p b).isTrue = false := by
  rw [Expr.prefSuffixExpression]
  split <;> rfl

theorem prefSuffix_isFalse {σ : Type} (e : Expr σ) (pre suffix : String)
    (p : Nat) (b : Bool) :
    (e.prefSuffixExpression pre suffix p b).isFalse = false := by
  rw [Expr.prefSuffixExpression]
  split <;> rfl

theorem prefSuffix_priority {σ : Type} (e : Expr σ) (pre suffix : String)
    (p : Nat) (b : Bool) :
    (e.prefSuffixExpression pre suffix p b).priority = p := by
  rw [Expr.prefSuffixExpression]
  split <;> rfl

theorem prefSuffix_sql_slow {σ : Type} (e : Expr σ) (pre suffix : String)
    (p : Nat) (b : Bool) (h0 : e.sql = "") :
    (e.prefSuffixExpression pre suffix p b).sql = "" := by
  rw [Expr.prefSuffixExpression, if_neg (by simp [h0])]

/-- C4 counterexample: the claim says a raw fragment is parenthesized by
any enclosing operator, including unary prefix/suffix operators; but
`Raw("1 OR 2").Not()` takes the pre-rendered fast path of the
prefix/suffix builder and renders `NOT 1 OR 2`, unparenthesized. -/
theorem c4_counterexample :
    ((Raw "1 OR 2" : Expr Unit).Not).GetSQL ()
      = ("NOT 1 OR 2", none)
    ∧ ("NOT 1 OR 2" : String) ≠ "NOT (NOT 1 OR 2)"
    ∧ ("NOT 1 OR 2" : String) ≠ "NOT (1 OR 2)" := by
  refine ⟨rfl, by decide, by decide⟩

/-- C4 amended: a raw fragment (priority 99) is parenthesized whenever it
is an operand of a binary operator (on either side, for any result
priority below 99); but a unary prefix/suffix operator applied to a raw
fragment takes the pre-rendered fast path and concatenates the texts with
no parentheses. -/
theorem c4_raw_parenthesization {σ : Type} (s : σ) (r : String) (hr : r ≠ "")
    (op : String) (p : Nat) (hp : p < 99) (bb : Bool)
    (v : Value σ) (rs : String) (rp : Nat) (hv : getSQL s v = (rs, rp, none))
    (e : Expr σ) (ls : String) (he : e.GetSQL s = (ls, none))
    (pre suffix : String) (p2 : Nat) (b2 : Bool) :
    ((Raw r : Expr σ).binaryOperation op v p bb).GetSQL s
      = ("(" ++ r ++ ")" ++ " " ++ op ++ " "
          ++ (if rp ≥ p then "(" ++ rs ++ ")" else rs), none)
    ∧ (e.binaryOperation op (.expr (Raw r)) p bb).GetSQL s
      = ((if e.priority > p then "(" ++ ls ++ ")" else ls)
          ++ " " ++ op ++ " " ++ ("(" ++ r ++ ")"), none)
    ∧ (Raw r : Expr σ).prefSuffixExpression pre suffix p2 b2
      = { sql := pre ++ r ++ suffix, priority := p2, isBool := b2 } := by
  refine ⟨?_, ?_, ?_⟩
  · rw [binaryOperation_spec s (Raw r) op v p bb r rs rp (Raw_GetSQL s r hr) hv]
    have h99 : (Raw r : Expr σ).priority > p := hp
    rw [if_pos h99]
  · have hv2 : getSQL s (.expr (Raw r)) = (r, 99, none) := by
      simp only [getSQL]
      rw [Raw_GetSQL s r hr]
      rfl
    rw [binaryOperation_spec s e op (.expr (Raw r)) p bb ls r 99 he hv2]
    have hge : (99 : Nat) ≥ p := by omega
    rw [if_pos hge]
  · have h0 : (Raw r : Expr σ).sql ≠ "" := hr
    rw [prefSuffix_fast _ _ _ _ _ h0]
    rfl

theorem c4_raw_parenthesization_witness :
    ((Raw "a + b" : Expr Unit).binaryOperation "*"
        (.int 3) 6 false).GetSQL ()
      = ("(a + b)" ++ " " ++ "*" ++ " " ++ "3", none) := by
  have h := (c4_raw_parenthesization () "a + b" (by decide) "*" 6 (by decide)
    false (Value.int 3) "3" 0 rfl (staticExpression "x" 0 false) "x" rfl
    "NOT " "" 13 true).1
  simpa using h

/-- C5: `In` applied to values that flatten to the empty list collapses to
the constant false `0`, and `NotIn` to the constant true `1`. -/
theorem c5_empty_in_notin {σ : Type} (s : σ) (e : Expr σ)
    (vals : List (RVal σ)) (h : expandSliceValues vals = some []) :
    e.In vals = some FalseE ∧ e.NotIn vals = some TrueE
    ∧ (FalseE : Expr σ).GetSQL s = ("0", none)
    ∧ (TrueE : Expr σ).GetSQL s = ("1", none) := by
  refine ⟨?_, ?_, rfl, rfl⟩ <;> simp [Expr.In, Expr.NotIn, h]

theorem c5_empty_in_notin_witness :
    (staticExpression "x" 0 false : Expr Unit).In [RVal.array []]
        = some FalseE
    ∧ (staticExpression "x" 0 false : Expr Unit).NotIn [RVal.array []]
        = some TrueE
    ∧ (FalseE : Expr Unit).GetSQL () = ("0", none)
    ∧ (TrueE : Expr Unit).GetSQL () = ("1", none) :=
  c5_empty_in_notin () (staticExpression "x" 0 false) [RVal.array []]
    (by simp [expandSliceValues, expandSliceValue])

/-- C6: the claim says flattening a nested nil pointer terminates that
branch without erroring; in the code, `expandSliceValue` recurses via
`reflect.Value.Elem`, which on a nil pointer/interface yields the zero
`reflect.Value`, whose `Interface()` call in the default case panics.
The whole `In`/`NotIn` call crashes (`none` models the panic). -/
theorem c6_nil_pointer_panics :
    expandSliceValue (RVal.ptr none : RVal Unit) = none
    ∧ expandSliceValues [(RVal.ptr none : RVal Unit)] = none
    ∧ expandSliceValue
        (RVal.array [RVal.base (Value.int 1), (RVal.ptr none : RVal Unit)])
      = none
    ∧ (staticExpression "x" 0 false : Expr Unit).In [RVal.ptr none] = none
    ∧ (staticExpression "x" 0 false : Expr Unit).NotIn
        [RVal.array [RVal.ptr none]] = none := by
  have h1 : expandSliceValue (RVal.ptr none : RVal Unit) = none := by
    simp [expandSliceValue]
  have h2 : expandSliceValues [(RVal.ptr none : RVal Unit)] = none := by
    simp [expandSliceValues, h1]
  have h3 : expandSliceValue
      (RVal.array [RVal.base (Value.int 1), (RVal.ptr none : RVal Unit)])
      = none := by
    simp [expandSliceValue, h1]
  have h4 : expandSliceValues [RVal.array [(RVal.ptr none : RVal Unit)]]
      = none := by
    simp [expandSliceValues, expandSliceValue, h1]
  refine ⟨h1, h2, h3, ?_, ?_⟩
  · simp [Expr.In, h2]
  · simp [Expr.NotIn, h4]

theorem not_not_prepend (t : String) :
    "NOT " ++ ("NOT " ++ t) = "NOT NOT " ++ t := by
  apply String.ext
  show "NOT ".data ++ ("NOT ".data ++ t.data) = "NOT NOT ".data ++ t.data
  rw [← List.append_assoc]
  rfl

theorem not_prepend_ne_empty (x : String) : "NOT " ++ x ++ "" ≠ "" := by
  intro hc
  have h2 := (string_append_eq_empty_iff _ _).mp hc
  have h3 := (string_append_eq_empty_iff _ _).mp h2.1
  exact (by decide : ("NOT " : String) ≠ "") h3.1

/-- C7 counterexample: for the non-constant boolean comparison node
`a < b`, double negation renders `NOT NOT a < b`; the rendering the claim
states, `NOT (NOT a < b)`, does not occur, because the prefix builder
parenthesizes its operand only when the operand priority strictly exceeds
13 and a `NOT` node has priority exactly 13. -/
theorem c7_counterexample :
    (((staticExpression "a" 0 false : Expr Unit).LessThan
        (.expr (staticExpression "b" 0 false))).Not.Not).GetSQL ()
      = ("NOT NOT a < b", none)
    ∧ ("NOT NOT a < b" : String) ≠ "NOT (NOT a < b)" := by
  refine ⟨rfl, by decide⟩

/-- C7 amended: double negation of a non-constant boolean node is indeed
not simplified, but it renders as `NOT NOT <e>` with no parentheses for
every operand of priority at most 13 (comparisons are 11, BETWEEN 12):
`NOT` parenthesizes a builder operand only when its priority strictly
exceeds 13, never parenthesizes a pre-rendered operand, and the inner
`NOT` node itself has priority exactly 13. -/
theorem c7_double_negation {σ : Type} (s : σ) (e : Expr σ) (t : String)
    (h1 : e.isTrue = false) (h2 : e.isFalse = false)
    (hp : e.priority ≤ 13) (hG : e.GetSQL s = (t, none)) :
    (e.Not.Not).GetSQL s = ("NOT NOT " ++ t, none) := by
  have hnot : e.Not = e.prefSuffixExpression "NOT " "" 13 true := by
    simp [Expr.Not, h1, h2]
  have hT2 : (e.Not).isTrue = false := by
    rw [hnot]
    exact prefSuffix_isTrue e "NOT " "" 13 true
  have hF2 : (e.Not).isFalse = false := by
    rw [hnot]
    exact prefSuffix_isFalse e "NOT " "" 13 true
  have hnot2 : e.Not.Not = (e.Not).prefSuffixExpression "NOT " "" 13 true := by
    conv_lhs => rw [Expr.Not]
    rw [hT2, hF2]
    simp
  by_cases hs : e.sql = ""
  · have hstep1 : (e.Not).GetSQL s = ("NOT " ++ t ++ "", none) := by
      rw [hnot, prefSuffix_slow e "NOT " "" 13 true hs s t hG,
        if_neg (by omega)]
    have hsql2 : (e.Not).sql = "" := by
      rw [hnot]
      exact prefSuffix_sql_slow e "NOT " "" 13 true hs
    have hpr2 : (e.Not).priority = 13 := by
      rw [hnot]
      exact prefSuffix_priority e "NOT " "" 13 true
    rw [hnot2, prefSuffix_slow (e.Not) "NOT " "" 13 true hsql2 s
      ("NOT " ++ t ++ "") hstep1, hpr2, if_neg (by omega)]
    simp [string_append_empty, not_not_prepend]
  · have ht : e.sql = t := by
      have h := hG
      rw [Expr.GetSQL, if_pos hs] at h
      simpa using h
    have hfast1 : e.Not
        = { sql := "NOT " ++ e.sql ++ "", priority := 13, isBool := true } := by
      rw [hnot, prefSuffix_fast e "NOT " "" 13 true hs]
    have hsql2 : (e.Not).sql ≠ "" := by
      rw [hfast1]
      exact not_prepend_ne_empty e.sql
    rw [hnot2, prefSuffix_fast (e.Not) "NOT " "" 13 true hsql2, Expr.GetSQL,
      if_pos (not_prepend_ne_empty (e.Not).sql), hfast1]
    simp [string_append_empty, not_not_prepend, ht]

theorem c7_double_negation_witness :
    ((staticExpression "a = b" 11 true : Expr Unit).Not.Not).GetSQL ()
      = ("NOT NOT " ++ "a = b", none) :=
  c7_double_negation () (staticExpression "a = b" 11 true) "a = b" rfl rfl
    (by decide) rfl

/-- The spec's invariant on an expression node: exactly one of the
pre-rendered literal text (`sql`, "set" meaning non-empty, which is what
`GetSQL` dispatches on) and the render closure (`builder`) is set. -/
def exactlyOne {σ : Type} (e : Expr σ) : Prop :=
  (e.sql ≠ "" ∧ e.builder = none) ∨ (e.sql = "" ∧ e.builder ≠ none)

theorem exactlyOne_TrueE {σ : Type} : exactlyOne (TrueE : Expr σ) := by
  left
  refine ⟨?_, rfl⟩
  show ("1" : String) ≠ ""
  decide

theorem exactlyOne_FalseE {σ : Type} : exactlyOne (FalseE : Expr σ) := by
  left
  refine ⟨?_, rfl⟩
  show ("0" : String) ≠ ""
  decide

theorem exactlyOne_binop {σ : Type} (e : Expr σ) (op : String) (v : Value σ)
    (p : Nat) (bb : Bool) : exactlyOne (e.binaryOperation op v p bb) :=
  Or.inr ⟨rfl, by simp [Expr.binaryOperation]⟩

theorem exactlyOne_prefSuffix {σ : Type} (e : Expr σ) (pre suffix : String)
    (p : Nat) (b : Bool) : exactlyOne (e.prefSuffixExpression pre suffix p b) := by
  rw [Expr.prefSuffixExpression]
  split
  next h =>
    left
    refine ⟨?_, rfl⟩
    intro hcon
    have hsplit := (string_append_eq_empty_iff _ _).mp hcon
    exact h ((string_append_eq_empty_iff _ _).mp hsplit.1).2
  next h =>
    right
    exact ⟨rfl, by simp⟩

theorem exactlyOne_toBoolean {σ : Type} (x : Expr σ) (hx : exactlyOne x)
    (y : Expr σ) (h : toBooleanExpression (Value.expr x) = some y) :
    exactlyOne y := by
  simp only [toBooleanExpression] at h
  by_cases x1 : x.isTrue = true
  · rw [if_pos x1] at h
    injection h with h2
    subst h2
    exact exactlyOne_TrueE
  · rw [if_neg x1] at h
    by_cases x2 : x.isFalse = true
    · rw [if_pos x2] at h
      injection h with h2
      subst h2
      exact exactlyOne_FalseE
    · rw [if_neg x2] at h
      by_cases x3 : x.isBool = true
      · rw [if_pos x3] at h
        injection h with h2
        subst h2
        exact hx
      · rw [if_neg x3] at h
        cases h

theorem exactlyOne_In_result {σ : Type} (e : Expr σ) (vals : List (RVal σ))
    (r : Expr σ) (h : e.In vals = some r) : exactlyOne r := by
  unfold Expr.In at h
  cases hexp : expandSliceValues vals with
  | none => rw [hexp] at h; cases h
  | some vs =>
      rw [hexp] at h
      dsimp only at h
      by_cases hl : vs.length = 0
      · rw [if_pos hl] at h
        injection h with h2
        subst h2
        exact exactlyOne_FalseE
      · rw [if_neg hl] at h
        injection h with h2
        subst h2
        right
        exact ⟨rfl, by simp⟩

theorem exactlyOne_NotIn_result {σ : Type} (e : Expr σ) (vals : List (RVal σ))
    (r : Expr σ) (h : e.NotIn vals = some r) : exactlyOne r := by
  unfold Expr.NotIn at h
  cases hexp : expandSliceValues vals with
  | none => rw [hexp] at h; cases h
  | some vs =>
      rw [hexp] at h
      dsimp only at h
      by_cases hl : vs.length = 0
      · rw [if_pos hl] at h
        injection h with h2
        subst h2
        exact exactlyOne_TrueE
      · rw [if_neg hl] at h
        injection h with h2
        subst h2
        right
        exact ⟨rfl, by simp⟩

/-- C8 counterexample: `Raw("")` — a node produced through the public
API — has neither the literal text set (its `sql` is empty, so `GetSQL`
does not dispatch to it) nor a render function. -/
theorem c8_counterexample : ¬ exactlyOne (Raw "" : Expr Unit) := by
  intro h
  rcases h with ⟨h1, _⟩ | ⟨_, h2⟩
  · exact h1 rfl
  · exact h2 rfl

/-- C8 amended: every expression node produced through the public API —
the constants, `Raw` on a NON-EMPTY string, static nodes, every operator
result (binary, prefix/suffix, `Not`, `And`/`Or` over well-formed
operands, `In`/`NotIn`, `BETWEEN`, function calls) and aliases — has
exactly one of literal text / render function set, and rendering
dispatches to whichever is present; `Raw("")` is the exception, with
neither set. -/
theorem c8_exactly_one {σ : Type} (s0 : String) (h0 : s0 ≠ "")
    (e x : Expr σ) (he : exactlyOne e) (hx : exactlyOne x)
    (op nm pre suffix : String) (v lo hi : Value σ) (p : Nat) (bb : Bool)
    (args : List (Value σ)) (vals : List (RVal σ)) (sc : σ) :
    exactlyOne (TrueE : Expr σ)
    ∧ exactlyOne (FalseE : Expr σ)
    ∧ exactlyOne (Raw s0 : Expr σ)
    ∧ exactlyOne (staticExpression s0 p bb : Expr σ)
    ∧ exactlyOne (e.binaryOperation op v p bb)
    ∧ exactlyOne (e.prefSuffixExpression pre suffix p bb)
    ∧ exactlyOne e.Not
    ∧ exactlyOne (e.And (.expr x))
    ∧ exactlyOne (e.Or (.expr x))
    ∧ exactlyOne (e.As nm)
    ∧ exactlyOne (function nm args)
    ∧ exactlyOne (e.buildBetween op lo hi)
    ∧ (∀ r, e.In vals = some r → exactlyOne r)
    ∧ (∀ r, e.NotIn vals = some r → exactlyOne r)
    ∧ (e.sql ≠ "" → e.GetSQL sc = (e.sql, none))
    ∧ (∀ bf, e.sql = "" → e.builder = some bf → e.GetSQL sc = bf sc) := by
  refine ⟨exactlyOne_TrueE, exactlyOne_FalseE, Or.inl ⟨h0, rfl⟩,
    Or.inl ⟨h0, rfl⟩, exactlyOne_binop e op v p bb,
    exactlyOne_prefSuffix e pre suffix p bb, ?_, ?_, ?_,
    Or.inr ⟨rfl, by simp [Expr.As]⟩, Or.inr ⟨rfl, by simp [function]⟩,
    Or.inr ⟨rfl, by simp [Expr.buildBetween]⟩,
    fun r h => exactlyOne_In_result e vals r h,
    fun r h => exactlyOne_NotIn_result e vals r h, ?_, ?_⟩
  · rw [Expr.Not]
    by_cases h1 : e.isTrue = true
    · rw [if_pos h1]; exact exactlyOne_FalseE
    · rw [if_neg h1]
      by_cases h2 : e.isFalse = true
      · rw [if_pos h2]; exact exactlyOne_TrueE
      · rw [if_neg h2]; exact exactlyOne_prefSuffix e "NOT " "" 13 true
  · rw [Expr.And]
    by_cases h1 : e.isFalse = true
    · rw [if_pos h1]; exact he
    · rw [if_neg h1]
      by_cases h2 : e.isTrue = true
      · rw [if_pos h2]
        cases htb : toBooleanExpression (Value.expr x) with
        | none => exact exactlyOne_binop e "AND" (.expr x) 14 true
        | some y => exact exactlyOne_toBoolean x hx y htb
      · rw [if_neg h2]; exact exactlyOne_binop e "AND" (.expr x) 14 true
  · rw [Expr.Or]
    by_cases h1 : e.isTrue = true
    · rw [if_pos h1]; exact he
    · rw [if_neg h1]
      by_cases h2 : e.isFalse = true
      · rw [if_pos h2]
        cases htb : toBooleanExpression (Value.expr x) with
        | none => exact exactlyOne_binop e "OR" (.expr x) 16 true
        | some y => exact exactlyOne_toBoolean x hx y htb
      · rw [if_neg h2]; exact exactlyOne_binop e "OR" (.expr x) 16 true
  · intro hsql
    rw [Expr.GetSQL, if_pos hsql]
  · intro bf hsql hb
    rw [Expr.GetSQL, if_neg (by simp [hsql]), hb]

theorem c8_exactly_one_witness : exactlyOne (Raw "x" : Expr Unit) :=
  (c8_exactly_one "x" (by decide) TrueE FalseE exactlyOne_TrueE
    exactlyOne_FalseE "AND" "f" "NOT " "" (.int 1) (.int 0) (.int 2) 14 true
    [] [] ()).2.2.1

theorem getSQL_expr_error {σ : Type} (sc : σ) (c : Expr σ) (t er : String)
    (hc : c.GetSQL sc = (t, some er)) :
    getSQL sc (.expr c) = (t, c.getOperatorPriority, some er) := by
  simp only [getSQL]
  rw [hc]

theorem binop_left_error {σ : Type} (sc : σ) (c : Expr σ) (t er op : String)
    (v : Value σ) (p : Nat) (bb : Bool) (hc : c.GetSQL sc = (t, some er)) :
    (c.binaryOperation op v p bb).GetSQL sc = ("", some er) := by
  rw [GetSQL_of_builder _ _ _ rfl rfl, hc]

theorem binop_right_error {σ : Type} (sc : σ) (e c : Expr σ)
    (ls t er op : String) (p : Nat) (bb : Bool)
    (he : e.GetSQL sc = (ls, none)) (hc : c.GetSQL sc = (t, some er)) :
    (e.binaryOperation op (.expr c) p bb).GetSQL sc = ("", some er) := by
  rw [GetSQL_of_builder _ _ _ rfl rfl, he, getSQL_expr_error sc c t er hc]

theorem commaValuesGo_error {σ : Type} (sc : σ) (c : Expr σ) (t er : String)
    (hc : c.GetSQL sc = (t, some er)) :
    ∀ (pre post : List (Value σ)) (acc : String) (fb : Bool),
      (∀ u ∈ pre, (getSQL sc u).2.2 = none) →
      commaValuesGo sc (pre ++ .expr c :: post) acc fb = ("", some er) := by
  intro pre
  induction pre with
  | nil =>
      intro post acc fb _
      simp only [List.nil_append, commaValuesGo]
      rw [getSQL_expr_error sc c t er hc]
  | cons u us ih =>
      intro post acc fb hok
      simp only [List.cons_append, commaValuesGo]
      rcases hg : getSQL sc u with ⟨usql, uprio, uerr⟩
      have hu := hok u (by simp)
      rw [hg] at hu
      simp only at hu
      subst hu
      exact ih post _ false (fun w hw => hok w (by simp [hw]))

/-- C9: every composing operation — binary operators (either child failing),
comma lists, function-call argument lists, BETWEEN (any of the three
operands failing), and IN/NOT IN (single-value, subquery, list-item or
left-expression failing) — returns a nested error unchanged, paired with
an empty SQL string, even when the failing child leaked partial text
`t`. -/
theorem c9_error_propagation {σ : Type} (sc : σ) (e c : Expr σ)
    (t ls er : String) (hc : c.GetSQL sc = (t, some er))
    (he : e.GetSQL sc = (ls, none))
    (op nm : String) (p : Nat) (bb : Bool)
    (v : Value σ) (rs : String) (rp : Nat)
    (hv : getSQL sc v = (rs, rp, none)) :
    (c.binaryOperation op v p bb).GetSQL sc = ("", some er)
    ∧ (e.binaryOperation op (.expr c) p bb).GetSQL sc = ("", some er)
    ∧ (∀ pre post, (∀ u ∈ pre, (getSQL sc u).2.2 = none) →
        commaValues sc (pre ++ .expr c :: post) = ("", some er))
    ∧ (∀ pre post, (∀ u ∈ pre, (getSQL sc u).2.2 = none) →
        (function nm (pre ++ .expr c :: post)).GetSQL sc = ("", some er))
    ∧ (c.buildBetween op v v).GetSQL sc = ("", some er)
    ∧ (e.buildBetween op (.expr c) v).GetSQL sc = ("", some er)
    ∧ (e.buildBetween op v (.expr c)).GetSQL sc = ("", some er)
    ∧ (∀ r, e.In [.base (.expr c)] = some r → r.GetSQL sc = ("", some er))
    ∧ (∀ r, e.In [.base (.subquery (t, some er))] = some r →
        r.GetSQL sc = ("", some er))
    ∧ (∀ r, e.In [.base v, .base (.expr c)] = some r →
        r.GetSQL sc = ("", some er))
    ∧ (∀ r, c.In [.base v, .base v] = some r → r.GetSQL sc = ("", some er))
    ∧ (∀ r, e.NotIn [.base v, .base (.expr c)] = some r →
        r.GetSQL sc = ("", some er)) := by
  have hvc := getSQL_expr_error sc c t er hc
  have hcomma : ∀ pre post, (∀ u ∈ pre, (getSQL sc u).2.2 = none) →
      commaValues sc (pre ++ .expr c :: post) = ("", some er) := by
    intro pre post hok
    exact commaValuesGo_error sc c t er hc pre post "" true hok
  refine ⟨binop_left_error sc c t er op v p bb hc,
    binop_right_error sc e c ls t er op p bb he hc, hcomma, ?_, ?_, ?_, ?_,
    ?_, ?_, ?_, ?_, ?_⟩
  · intro pre post hok
    rw [GetSQL_of_builder _ _ _ rfl rfl, hcomma pre post hok]
  · rw [GetSQL_of_builder _ _ _ rfl rfl, hc]
  · rw [GetSQL_of_builder _ _ _ rfl rfl, he, hvc]
  · rw [GetSQL_of_builder _ _ _ rfl rfl, he, hv, hvc]
  · intro r hr
    unfold Expr.In at hr
    rw [show expandSliceValues [RVal.base (Value.expr c)]
        = some [Value.expr c] by simp [expandSliceValues, expandSliceValue]]
      at hr
    dsimp only at hr
    rw [if_neg (by simp)] at hr
    injection hr with h2
    subst h2
    rw [GetSQL_of_builder _ _ _ rfl rfl]
    show (e.Equals (.expr c)).GetSQL sc = ("", some er)
    rw [Expr.Equals, GetSQL_of_builder _ _ _ rfl rfl, he, hvc]
  · intro r hr
    unfold Expr.In at hr
    rw [show expandSliceValues [RVal.base (Value.subquery (t, some er))]
        = some [Value.subquery (t, some er)]
        by simp [expandSliceValues, expandSliceValue]] at hr
    dsimp only at hr
    rw [if_neg (by simp)] at hr
    injection hr with h2
    subst h2
    rw [GetSQL_of_builder _ _ _ rfl rfl]
    show Expr.getBuilder e e.Equals _ [Value.subquery (t, some er)] sc
      = ("", some er)
    unfold Expr.getBuilder
    rfl
  · intro r hr
    unfold Expr.In at hr
    rw [show expandSliceValues [RVal.base v, RVal.base (Value.expr c)]
        = some [v, Value.expr c]
        by simp [expandSliceValues, expandSliceValue]] at hr
    dsimp only at hr
    rw [if_neg (by simp)] at hr
    injection hr with h2
    subst h2
    rw [GetSQL_of_builder _ _ _ rfl rfl]
    show Expr.getBuilder e e.Equals _ [v, Value.expr c] sc = ("", some er)
    unfold Expr.getBuilder
    have : commaValues sc [v, Value.expr c] = ("", some er) := by
      have h3 := hcomma [v] [] (by intro u hu; simp at hu; subst hu; rw [hv])
      simpa using h3
    rw [this]
  · intro r hr
    unfold Expr.In at hr
    rw [show expandSliceValues [RVal.base v, RVal.base v] = some [v, v]
        by simp [expandSliceValues, expandSliceValue]] at hr
    dsimp only at hr
    rw [if_neg (by simp)] at hr
    injection hr with h2
    subst h2
    rw [GetSQL_of_builder _ _ _ rfl rfl]
    show Expr.getBuilder c c.Equals _ [v, v] sc = ("", some er)
    unfold Expr.getBuilder
    have hcv : commaValues sc [v, v] = (rs ++ ", " ++ rs, none) := by
      simp only [commaValues, commaValuesGo]
      rw [hv]
      rfl
    rw [hcv, hc]
  · intro r hr
    unfold Expr.NotIn at hr
    rw [show expandSliceValues [RVal.base v, RVal.base (Value.expr c)]
        = some [v, Value.expr c]
        by simp [expandSliceValues, expandSliceValue]] at hr
    dsimp only at hr
    rw [if_neg (by simp)] at hr
    injection hr with h2
    subst h2
    rw [GetSQL_of_builder _ _ _ rfl rfl]
    show Expr.getBuilder e e.NotEquals _ [v, Value.expr c] sc = ("", some er)
    unfold Expr.getBuilder
    have : commaValues sc [v, Value.expr c] = ("", some er) := by
      have h3 := hcomma [v] [] (by intro u hu; simp at hu; subst hu; rw [hv])
      simpa using h3
    rw [this]

theorem c9_error_propagation_witness :
    (({ builder := some (fun _ => ("LEAK", some "boom")) } : Expr Unit
      ).binaryOperation "+" (.int 3) 7 false).GetSQL () = ("", some "boom") :=
  (c9_error_propagation () (staticExpression "a" 0 false)
    ({ builder := some (fun _ => ("LEAK", some "boom")) } : Expr Unit)
    "LEAK" "a" "boom" rfl rfl "+" "f" 7 false (.int 3) "3" 0 rfl).1

/-- C10 counterexample: `x.In()` with zero values returns `False()`, whose
boolean-typed flag IS set, and the AND folding substitution DOES apply to
it (`True().And(False())` is replaced by the constant, not built as a
generic AND node) — so the claim's universal "flag unset / folding never
applies" fails for the empty-list case of `In`/`NotIn`. -/
theorem c10_counterexample :
    (staticExpression "x" 0 false : Expr Unit).In [] = some FalseE
    ∧ (FalseE : Expr Unit).isBool = true
    ∧ (TrueE : Expr Unit).And (.expr FalseE) = FalseE := by
  refine ⟨?_, rfl, rfl⟩
  simp [Expr.In, expandSliceValues]

/-- C10 amended: the nodes returned by `Between`/`NotBetween` (always) and
by `In`/`NotIn` on a non-empty flattened value list carry the boolean
flag unset, so the AND/OR folding substitution never applies to them —
`True().And(x.Between(1,2))` builds the generic AND node and renders as
`1 AND <x> BETWEEN 1 AND 2`; `In`/`NotIn` on an EMPTY flattened list,
however, return the boolean-flagged constants `False()`/`True()`, to
which folding does apply. -/
theorem c10_between_in_not_boolean {σ : Type} (sc : σ) (e x : Expr σ)
    (op : String) (lo hi : Value σ) (vals : List (RVal σ))
    (vs : List (Value σ)) (hvs : expandSliceValues vals = some vs)
    (hne : vs ≠ []) (xs : String) (hx : x.GetSQL sc = (xs, none)) :
    (e.buildBetween op lo hi).isBool = false
    ∧ (e.Between lo hi).isBool = false
    ∧ (e.NotBetween lo hi).isBool = false
    ∧ (∀ r, e.In vals = some r → r.isBool = false)
    ∧ (∀ r, e.NotIn vals = some r → r.isBool = false)
    ∧ TrueE.And (.expr (x.Between lo hi))
        = TrueE.binaryOperation "AND" (.expr (x.Between lo hi)) 14 true
    ∧ (TrueE.And (.expr (x.Between (.int 1) (.int 2)))).GetSQL sc
        = ("1 AND " ++ (xs ++ " BETWEEN " ++ "1" ++ " AND " ++ "2"), none) := by
  have hlen : ¬ vs.length = 0 := by
    intro hc
    exact hne (List.length_eq_zero.mp hc)
  refine ⟨rfl, rfl, rfl, ?_, ?_, rfl, ?_⟩
  · intro r hr
    unfold Expr.In at hr
    rw [hvs] at hr
    dsimp only at hr
    rw [if_neg hlen] at hr
    injection hr with h2
    subst h2
    rfl
  · intro r hr
    unfold Expr.NotIn at hr
    rw [hvs] at hr
    dsimp only at hr
    rw [if_neg hlen] at hr
    injection hr with h2
    subst h2
    rfl
  · have hbet : (x.Between (.int 1) (.int 2)).GetSQL sc
        = (xs ++ " BETWEEN " ++ "1" ++ " AND " ++ "2", none) := by
      rw [Expr.Between, Expr.buildBetween, GetSQL_of_builder _ _ _ rfl rfl,
        hx]
      rfl
    have hAnd : TrueE.And (.expr (x.Between (.int 1) (.int 2)))
        = TrueE.binaryOperation "AND" (.expr (x.Between (.int 1) (.int 2)))
            14 true := rfl
    rw [hAnd, binaryOperation_spec sc TrueE "AND"
      (.expr (x.Between (.int 1) (.int 2))) 14 true "1"
      (xs ++ " BETWEEN " ++ "1" ++ " AND " ++ "2") 12 rfl
      (by simp only [getSQL]; rw [hbet]; rfl)]
    rfl

theorem c10_between_in_not_boolean_witness :
    ((TrueE : Expr Unit).And
        (.expr ((staticExpression "x" 0 false).Between (.int 1) (.int 2)))
      ).GetSQL ()
      = ("1 AND " ++ ("x" ++ " BETWEEN " ++ "1" ++ " AND " ++ "2"), none) :=
  (c10_between_in_not_boolean () (staticExpression "y" 0 false)
    (staticExpression "x" 0 false) " BETWEEN " (.int 1) (.int 2)
    [RVal.base (.int 5)] [.int 5]
    (by simp [expandSliceValues, expandSliceValue])
    (by simp) "x" rfl).2.2.2.2.2.2

end Sqlingo
